import Mathlib

/-!
Verification of the vibing-steampunk ADT client engine against its
natural-language specification.

The Go source is embedded shallowly: pure functions become Lean functions,
stateful workflows become functions from an explicit environment (the outcome
of each primitive ADT call) to a result paired with the trace of issued calls,
and XML wire payloads are modelled by inductive types describing the parsed
shape of the response (empty body / malformed body / well-formed document),
mirroring how Go's `encoding/xml` presents them to the parsing code.
-/

/- ### Go string primitives

The Go standard-library string helpers used by the engine, modelled over the
character list underlying a Lean `String` so that they compute by kernel
reduction.  `strings.ToUpper` is modelled character-wise with `Char.toUpper`
(the engine only upper-cases ASCII object and package names). -/

/-- Model of Go `strings.ToUpper`. -/
def goUpper (s : String) : String :=
  String.mk (s.data.map Char.toUpper)

/-- Model of Go `strings.HasPrefix`. -/
def goHasPrefix (s pre : String) : Bool :=
  pre.data.isPrefixOf s.data

/-- Model of Go `strings.HasSuffix`. -/
def goHasSuffix (s suf : String) : Bool :=
  suf.data.isSuffixOf s.data

/-- Model of Go `strings.TrimSuffix`. -/
def goTrimSuffix (s suf : String) : String :=
  if goHasSuffix s suf then String.mk (s.data.take (s.data.length - suf.data.length))
  else s

/-- Helper for `goContains`: does `sub` occur as a contiguous run inside the
second list. -/
def listHasInfix (sub : List Char) : List Char → Bool
  | [] => sub.isEmpty
  | c :: rest => sub.isPrefixOf (c :: rest) || listHasInfix sub rest

/-- Model of Go `strings.Contains` (substring containment). -/
def goContains (s sub : String) : Bool :=
  listHasInfix sub.data s.data

/-- Model of Go `strings.ContainsRune`. -/
def goContainsRune (s : String) (c : Char) : Bool :=
  s.data.elem c

/-- Model of Go `strings.ContainsAny` (does `s` hold any rune of `chars`). -/
def goContainsAny (s chars : String) : Bool :=
  s.data.any (fun c => chars.data.contains c)

/- ### Safety gate (pkg/adt/safety.go) -/

/-- Embedding of `SafetyConfig` from pkg/adt/safety.go.  Field defaults are the
Go zero values. -/
structure SafetyConfig where
  ReadOnly : Bool := false
  BlockFreeSQL : Bool := false
  AllowedOps : String := ""
  DisallowedOps : String := ""
  AllowedPackages : List String := []
  DryRun : Bool := false
  EnableTransports : Bool := false
  TransportReadOnly : Bool := false
  AllowedTransports : List String := []

/-- Embedding of `SafetyConfig.IsOperationAllowed`.  An operation type is a
single rune. -/
def IsOperationAllowed (s : SafetyConfig) (op : Char) : Bool :=
  if s.DryRun then true
  else if s.ReadOnly && goContainsRune "CDUAW" op then false
  else if s.BlockFreeSQL && (op == 'F') then false
  else if (op == 'X') && !s.EnableTransports then false
  else if (s.DisallowedOps != "") && goContainsRune s.DisallowedOps op then false
  else if (s.AllowedOps != "") && !(goContainsRune s.AllowedOps op) then false
  else true

/-- The operation gate as the specification words it (claim C2): rules in the
fixed order dry-run, read-only, block-free-SQL, transport-enable, deny-list,
allow-list, with read-only denying exactly Create, Update, Delete, Activate
and Workflow. -/
def specIsOperationAllowed (s : SafetyConfig) (op : Char) : Bool :=
  if s.DryRun then true
  else if s.ReadOnly ∧ op ∈ ['C', 'U', 'D', 'A', 'W'] then false
  else if s.BlockFreeSQL ∧ op = 'F' then false
  else if op = 'X' ∧ ¬ s.EnableTransports then false
  else if s.DisallowedOps ≠ "" ∧ op ∈ s.DisallowedOps.data then false
  else if s.AllowedOps ≠ "" ∧ op ∉ s.AllowedOps.data then false
  else true

/-- Embedding of `SafetyConfig.IsPackageAllowed`: both the package name and
each configured pattern are upper-cased, then matched exactly or by a
suffix-`*` wildcard. -/
def IsPackageAllowed (s : SafetyConfig) (pkg : String) : Bool :=
  if s.AllowedPackages.length == 0 then true
  else
    let pkgU := goUpper pkg
    s.AllowedPackages.any (fun a0 =>
      let allowed := goUpper a0
      allowed == pkgU ||
        (goHasSuffix allowed "*" && goHasPrefix pkgU (goTrimSuffix allowed "*")))

/-- Claim C2: the safety gate's operation check agrees with the rule cascade
as the specification states it, for every configuration and operation type. -/
theorem c2_operation_gate_cascade (s : SafetyConfig) (op : Char) :
    IsOperationAllowed s op = specIsOperationAllowed s op := by
  unfold IsOperationAllowed specIsOperationAllowed goContainsRune
  simp only [List.elem_eq_mem, Bool.and_eq_true, decide_eq_true_eq,
    bne_iff_ne, beq_iff_eq, Bool.not_eq_true']
  split_ifs <;> simp_all

/-- Claim C10: the package allow-list check is case-insensitive in the package
name and in the configured patterns (both sides are upper-cased before
matching), and an empty allowed-packages list allows every package. -/
theorem c10_package_check_case_insensitive :
    (∀ (s : SafetyConfig) (p q : String), goUpper p = goUpper q →
      IsPackageAllowed s p = IsPackageAllowed s q) ∧
    (∀ (s t : SafetyConfig) (p : String),
      s.AllowedPackages.map goUpper = t.AllowedPackages.map goUpper →
      IsPackageAllowed s p = IsPackageAllowed t p) ∧
    (∀ (s : SafetyConfig) (p : String), s.AllowedPackages = [] →
      IsPackageAllowed s p = true) := by
  refine ⟨?_, ?_, ?_⟩
  · intro s p q h
    simp only [IsPackageAllowed, h]
  · intro s t p h
    have hlen : s.AllowedPackages.length = t.AllowedPackages.length := by
      have := congrArg List.length h
      simpa using this
    have e1 : ∀ (l : List String),
        (l.any fun a0 =>
          goUpper a0 == goUpper p ||
            (goHasSuffix (goUpper a0) "*" &&
              goHasPrefix (goUpper p) (goTrimSuffix (goUpper a0) "*")))
        = ((l.map goUpper).any fun u =>
          u == goUpper p ||
            (goHasSuffix u "*" && goHasPrefix (goUpper p) (goTrimSuffix u "*"))) := by
      intro l
      rw [List.any_map]
      rfl
    simp only [IsPackageAllowed, hlen]
    rw [e1, e1, h]
  · intro s p h
    simp [IsPackageAllowed, h]

/-- Witness for C10 at concrete inputs: the wildcard pattern list `["z*"]`
treats `ZTEST` and `ztest` alike, upper-cased pattern lists agree, and the
empty configuration allows any package. -/
theorem c10_package_check_case_insensitive_witness :
    IsPackageAllowed { AllowedPackages := ["z*"] } "ZTEST" =
      IsPackageAllowed { AllowedPackages := ["z*"] } "ztest" ∧
    IsPackageAllowed { AllowedPackages := ["z*", "$tmp"] } "ZT" =
      IsPackageAllowed { AllowedPackages := ["Z*", "$TMP"] } "ZT" ∧
    IsPackageAllowed { AllowedPackages := [] } "ANYPKG" = true :=
  ⟨c10_package_check_case_insensitive.1 _ "ZTEST" "ztest" (by decide),
   c10_package_check_case_insensitive.2.1
     { AllowedPackages := ["z*", "$tmp"] } { AllowedPackages := ["Z*", "$TMP"] } "ZT" (by decide),
   c10_package_check_case_insensitive.2.2 _ "ANYPKG" rfl⟩

/- ### Activation result parsing (mcp-abap-adt-go/pkg/adt/crud.go) -/

/-- Embedding of `ActivationResultMessage` from crud.go (the Go field `Type`
is spelled `Typ` because `Type` is a Lean keyword). -/
structure ActivationResultMessage where
  ObjDescr : String := ""
  Typ : String := ""
  Line : Int := 0
  Href : String := ""
  ForceSupported : Bool := false
  ShortText : String := ""
deriving DecidableEq

/-- Embedding of `InactiveObject` from crud.go (`Type` spelled `Typ`). -/
structure InactiveObject where
  URI : String := ""
  Typ : String := ""
  Name : String := ""
  ParentURI : String := ""
deriving DecidableEq

/-- Embedding of `ActivationResult` from crud.go. -/
structure ActivationResult where
  Success : Bool
  Messages : List ActivationResultMessage
  Inactive : List InactiveObject
deriving DecidableEq

/-- One `msg` element of the activation response, as Go `encoding/xml`
unmarshals it inside `parseActivationResult` (the nested `shortText/txt`
element is flattened to its text). -/
structure ActivationMsgXml where
  ObjDescr : String := ""
  Typ : String := ""
  Line : Int := 0
  Href : String := ""
  ForceSupported : Bool := false
  ShortTextTxt : String := ""
deriving DecidableEq

/-- One `inactiveObjects/entry/object/ref` element of the activation
response. -/
structure InactiveRefXml where
  URI : String := ""
  Typ : String := ""
  Name : String := ""
  ParentURI : String := ""
deriving DecidableEq

/-- The activation response body as `parseActivationResult` observes it:
a zero-byte body, a body Go's `encoding/xml` rejects (`xml.Unmarshal`
returns an error), or an unmarshalled document.  An `entry` without an
`object` child unmarshals to a nil pointer, modelled by `Option`. -/
inductive ActivationResponse where
  | empty
  | malformed (raw : String)
  | doc (msgs : List ActivationMsgXml) (entries : List (Option InactiveRefXml))

/-- Embedding of `parseActivationResult` from crud.go: empty body is success;
an unparsable body yields a failed result carrying the raw body as an `E`
message; otherwise success starts `true` and is cleared by any message whose
type holds one of `E`, `A`, `X` (`strings.ContainsAny`) and by any inactive
entry with a non-nil object, which is also appended to `Inactive`. -/
def parseActivationResult : ActivationResponse → ActivationResult
  | .empty => { Success := true, Messages := [], Inactive := [] }
  | .malformed raw =>
      { Success := false
        Messages := [{ Typ := "E", ShortText := raw }]
        Inactive := [] }
  | .doc msgs entries =>
      { Success := !(msgs.any fun m => goContainsAny m.Typ "EAX")
                    && !(entries.any Option.isSome)
        Messages := msgs.map (fun m =>
          { ObjDescr := m.ObjDescr, Typ := m.Typ, Line := m.Line, Href := m.Href,
            ForceSupported := m.ForceSupported, ShortText := m.ShortTextTxt })
        Inactive := (entries.filterMap id).map (fun r =>
          { URI := r.URI, Typ := r.Typ, Name := r.Name, ParentURI := r.ParentURI }) }

/-- Claim C3: parsing an activation response succeeds iff no message of the
parsed result has a severity holding `E`, `A` or `X` and the inactive-object
set is empty; the zero-byte response parses to success with no messages. -/
theorem c3_activation_success_iff (resp : ActivationResponse) :
    ((parseActivationResult resp).Success = true ↔
      ((parseActivationResult resp).Messages.all
          (fun m => !goContainsAny m.Typ "EAX") = true ∧
        (parseActivationResult resp).Inactive = [])) ∧
    parseActivationResult .empty = { Success := true, Messages := [], Inactive := [] } := by
  refine ⟨?_, rfl⟩
  cases resp with
  | empty => simp [parseActivationResult]
  | malformed raw =>
      simp only [parseActivationResult, List.all_cons, List.all_nil]
      decide
  | doc msgs entries =>
      simp only [parseActivationResult, List.all_map, Bool.and_eq_true, Bool.not_eq_true',
        List.any_eq_false, List.all_eq_true, Function.comp, List.map_eq_nil_iff,
        List.filterMap_eq_nil_iff, id_eq, Bool.not_eq_true, Option.not_isSome,
        Option.isNone_iff_eq_none]
      constructor
      · rintro ⟨h1, h2⟩
        refine ⟨?_, h2⟩
        intro x hx
        obtain ⟨m, hm, rfl⟩ := List.mem_map.mp hx
        exact h1 m hm
      · rintro ⟨h1, h2⟩
        refine ⟨?_, h2⟩
        intro m hm
        exact h1 _ (List.mem_map_of_mem _ hm)

/- ### Syntax-check result parsing (mcp-abap-adt-go/pkg/adt/crud.go) -/

/-- Embedding of `SyntaxCheckResult` from crud.go.  `Line` and `Offset` are
filled from the `#start=L,O` URI fragment (decimal digits), so they are
modelled as naturals. -/
structure SyntaxCheckResult where
  URI : String := ""
  Line : Nat := 0
  Offset : Nat := 0
  Severity : String := ""
  Text : String := ""
deriving DecidableEq

/-- One `checkMessage` element of the check-run response (`Type` spelled
`Typ`). -/
structure CheckMessageXml where
  URI : String := ""
  Typ : String := ""
  ShortText : String := ""
deriving DecidableEq

/-- The check-run response body as `parseSyntaxCheckResults` observes it.
A zero-byte body makes Go's `xml.Unmarshal` fail with `io.EOF` (there is no
element to decode), which the code wraps into its parse error; `malformed`
covers any other body `xml.Unmarshal` rejects.  A document is the list of
`checkReport` elements, each carrying its `checkMessageList/checkMessage`
children. -/
inductive CheckRunResponse where
  | empty
  | malformed (errText : String)
  | doc (reports : List (List CheckMessageXml))

/-- Model of `strconv.Atoi` on the all-digit captures of the line/offset
regular expression. -/
def digitsToNat (l : List Char) : Nat :=
  l.foldl (fun n c => n * 10 + (c.toNat - 48)) 0

/-- Helper for the line/offset regular expression of crud.go: match
`start=<digits>,<digits>` directly after a `#`. -/
def matchStartFrag (tail : List Char) : Option (List Char × List Char) :=
  if "start=".data.isPrefixOf tail then
    let rest := tail.drop 6
    let d1 := rest.takeWhile (fun c => c.isDigit)
    let r1 := rest.dropWhile (fun c => c.isDigit)
    if d1.isEmpty then none
    else
      match r1 with
      | ',' :: r2 =>
          let d2 := r2.takeWhile (fun c => c.isDigit)
          if d2.isEmpty then none else some (d1, d2)
      | _ => none
  else none

/-- Model of `lineOffsetRegex.FindStringSubmatch` on a URI: the leftmost
match of the pattern capturing a nonempty `#`-free run, then `#start=`,
then two digit groups.  `run` accumulates the `#`-free characters read
since the previous `#`. -/
def scanStart (run : List Char) : List Char → Option (List Char × Nat × Nat)
  | [] => none
  | c :: tail =>
    if c = '#' then
      match (if run.isEmpty then none else matchStartFrag tail) with
      | some (d1, d2) => some (run, digitsToNat d1, digitsToNat d2)
      | none => scanStart [] tail
    else scanStart (run ++ [c]) tail

/-- Embedding of the message-to-result step of `parseSyntaxCheckResults`:
when the URI carries a `#start=L,O` fragment, the URI is trimmed to the part
before the fragment and line/offset are extracted. -/
def parseCheckMessage (msg : CheckMessageXml) : SyntaxCheckResult :=
  match scanStart [] msg.URI.data with
  | some (pre, l, o) =>
      { URI := String.mk pre, Severity := msg.Typ, Text := msg.ShortText,
        Line := l, Offset := o }
  | none =>
      { URI := msg.URI, Severity := msg.Typ, Text := msg.ShortText,
        Line := 0, Offset := 0 }

/-- Embedding of `parseSyntaxCheckResults` from crud.go.  The code calls
`xml.Unmarshal` on the (namespace-stripped) body with no empty-body guard,
so a zero-byte response surfaces Go's `io.EOF` as a wrapped parse error. -/
def parseSyntaxCheckResults : CheckRunResponse → Except String (List SyntaxCheckResult)
  | .empty => .error "parsing syntax check response: EOF"
  | .malformed e => .error ("parsing syntax check response: " ++ e)
  | .doc reports => .ok (reports.flatMap (fun msgs => msgs.map parseCheckMessage))

/-- Claim C9 (code bug): parsing the zero-byte syntax-check response does not
yield an empty diagnostic list with no error; `xml.Unmarshal` fails with
`EOF` on an empty body and the parser returns that error, while a well-formed
response with no reports does give the empty list. -/
theorem c9_empty_syntax_check_response_is_error :
    parseSyntaxCheckResults .empty = .error "parsing syntax check response: EOF" ∧
    (parseSyntaxCheckResults .empty).isOk = false ∧
    parseSyntaxCheckResults (.doc []) = .ok [] :=
  ⟨rfl, rfl, rfl⟩

/- ### Workflow engine (mcp-abap-adt-go/pkg/adt/workflows.go)

Each workflow is embedded as a function from a `WorkflowEnv` -- the outcome
the SAP server gives to each primitive ADT call -- to the Go function's
result paired with the ordered trace of primitive calls it issues.  Go's
`defer` that unlocks when `result.Success` is still false is reflected by
appending the deferred `unlock` call on every return path on which the Go
code runs it (its error is discarded, so its outcome needs no environment
field). -/

/-- One primitive call issued by a workflow or by the deployment handler.
`recordUploadFailure` is the deploy handler's local bookkeeping (not a
network request); every other constructor is an HTTP request to SAP. -/
inductive AdtCall where
  | syntaxCheck (objectURL source : String)
  | lock (objectURL accessMode : String)
  | updateSource (sourceURL source lockHandle transport : String)
  | unlock (objectURL lockHandle : String)
  | activate (objectURL objectName : String)
  | createObject (objectType name description packageName transport : String)
  | createTestInclude (className lockHandle transport : String)
  | updateClassInclude (className includeType source lockHandle transport : String)
  | runUnitTests (objectURL : String)
  | getPackage (packageName : String)
  | activatePackageIterative (packageName : String) (maxPasses : Nat)
  | recordUploadFailure (message : String)
deriving DecidableEq

/-- Is this call an HTTP request to the SAP server. -/
def AdtCall.isNetworkRequest : AdtCall → Bool
  | .recordUploadFailure _ => false
  | _ => true

/-- Is this call a lock acquisition. -/
def isLockCall : AdtCall → Bool
  | .lock _ _ => true
  | _ => false

/-- Is this call a source PUT. -/
def isUpdateSourceCall : AdtCall → Bool
  | .updateSource _ _ _ _ => true
  | _ => false

/-- Is this call a syntax-check request. -/
def isSyntaxCheckCall : AdtCall → Bool
  | .syntaxCheck _ _ => true
  | _ => false

/-- Is this call an unlock of the given lock handle. -/
def isUnlockFor (h : String) : AdtCall → Bool
  | .unlock _ lh => lh == h
  | _ => false

/-- Embedding of `LockResult` from crud.go. -/
structure LockResult where
  LockHandle : String := ""
  CorrNr : String := ""
  CorrUser : String := ""
  CorrText : String := ""
  IsLocal : Bool := false
  IsLinkUp : Bool := false
  ModificationSupport : String := ""
deriving DecidableEq

/-- Embedding of `UnitTestResult` from crud.go with its contents elided: the
workflows only store and forward it, no claim inspects it. -/
structure UnitTestResult where
  raw : Unit := ()
deriving DecidableEq

/-- The outcomes the environment (SAP server plus transport) gives to the
primitive calls of one workflow execution.  `Option String` fields are
`some err` for a failed call and `none` for success; the deferred unlock's
outcome is discarded by the Go code and therefore not modelled. -/
structure WorkflowEnv where
  syntaxCheckRes : Except String (List SyntaxCheckResult) := .ok []
  lockRes : Except String LockResult := .ok {}
  updateSourceRes : Option String := none
  unlockRes : Option String := none
  activateRes : Except String ActivationResult := .ok { Success := true, Messages := [], Inactive := [] }
  createObjectRes : Option String := none
  createTestIncludeRes : Option String := none
  updateClassIncludeRes : Option String := none
  runUnitTestsRes : Except String UnitTestResult := .ok {}

/-- Embedding of `WriteProgramResult` from workflows.go. -/
structure WriteProgramResult where
  Success : Bool := false
  ProgramName : String := ""
  ObjectURL : String := ""
  SyntaxErrors : List SyntaxCheckResult := []
  Activation : Option ActivationResult := none
  Message : String := ""
deriving DecidableEq

/-- Embedding of `WriteClassResult` from workflows.go. -/
structure WriteClassResult where
  Success : Bool := false
  ClassName : String := ""
  ObjectURL : String := ""
  SyntaxErrors : List SyntaxCheckResult := []
  Activation : Option ActivationResult := none
  Message : String := ""
deriving DecidableEq

/-- Embedding of `CreateProgramResult` from workflows.go. -/
structure CreateProgramResult where
  Success : Bool := false
  ProgramName : String := ""
  ObjectURL : String := ""
  SyntaxErrors : List SyntaxCheckResult := []
  Activation : Option ActivationResult := none
  Message : String := ""
deriving DecidableEq

/-- Embedding of `CreateClassWithTestsResult` from workflows.go. -/
structure CreateClassWithTestsResult where
  Success : Bool := false
  ClassName : String := ""
  ObjectURL : String := ""
  Activation : Option ActivationResult := none
  UnitTestResult? : Option UnitTestResult := none
  Message : String := ""
deriving DecidableEq

/-- The blocking-severity loop shared by `WriteProgram` and `WriteClass`:
any diagnostic of severity `E`, `A` or `X`. -/
def hasBlockingSeverity (l : List SyntaxCheckResult) : Bool :=
  l.any fun se => se.Severity == "E" || se.Severity == "A" || se.Severity == "X"

/-- Embedding of `Client.WriteProgram` from workflows.go:
syntax check, then lock, PUT, unlock, activate, with the deferred
release-on-failure unlock. -/
def WriteProgram (env : WorkflowEnv) (programName0 source transport : String) :
    WriteProgramResult × List AdtCall :=
  let programName := goUpper programName0
  let objectURL := "/sap/bc/adt/programs/programs/" ++ programName
  let sourceURL := objectURL ++ "/source/main"
  let result : WriteProgramResult := { ProgramName := programName, ObjectURL := objectURL }
  match env.syntaxCheckRes with
  | .error e =>
      ({ result with Message := "Syntax check failed: " ++ e },
       [.syntaxCheck objectURL source])
  | .ok syntaxErrors =>
    if hasBlockingSeverity syntaxErrors then
      ({ result with SyntaxErrors := syntaxErrors,
                     Message := "Source has syntax errors - not saved" },
       [.syntaxCheck objectURL source])
    else
      let result := { result with SyntaxErrors := syntaxErrors }
      match env.lockRes with
      | .error e =>
          ({ result with Message := "Failed to lock object: " ++ e },
           [.syntaxCheck objectURL source, .lock objectURL "MODIFY"])
      | .ok lock =>
        let acquired := [AdtCall.syntaxCheck objectURL source, .lock objectURL "MODIFY"]
        match env.updateSourceRes with
        | some e =>
            ({ result with Message := "Failed to update source: " ++ e },
             acquired ++ [.updateSource sourceURL source lock.LockHandle transport,
                          .unlock objectURL lock.LockHandle])
        | none =>
          let afterPut := acquired ++
            [AdtCall.updateSource sourceURL source lock.LockHandle transport]
          match env.unlockRes with
          | some e =>
              ({ result with Message := "Failed to unlock object: " ++ e },
               afterPut ++ [.unlock objectURL lock.LockHandle,
                            .unlock objectURL lock.LockHandle])
          | none =>
            let afterUnlock := afterPut ++ [AdtCall.unlock objectURL lock.LockHandle]
            match env.activateRes with
            | .error e =>
                ({ result with Message := "Failed to activate: " ++ e },
                 afterUnlock ++ [.activate objectURL programName,
                                 .unlock objectURL lock.LockHandle])
            | .ok activation =>
              if activation.Success then
                ({ result with Success := true, Activation := some activation,
                               Message := "Program updated and activated successfully" },
                 afterUnlock ++ [.activate objectURL programName])
              else
                ({ result with Activation := some activation,
                               Message := "Activation failed - check activation messages" },
                 afterUnlock ++ [.activate objectURL programName,
                                 .unlock objectURL lock.LockHandle])

/-- Embedding of `Client.WriteClass` from workflows.go (same shape as
`WriteProgram` over the class object URL). -/
def WriteClass (env : WorkflowEnv) (className0 source transport : String) :
    WriteClassResult × List AdtCall :=
  let className := goUpper className0
  let objectURL := "/sap/bc/adt/oo/classes/" ++ className
  let sourceURL := objectURL ++ "/source/main"
  let result : WriteClassResult := { ClassName := className, ObjectURL := objectURL }
  match env.syntaxCheckRes with
  | .error e =>
      ({ result with Message := "Syntax check failed: " ++ e },
       [.syntaxCheck objectURL source])
  | .ok syntaxErrors =>
    if hasBlockingSeverity syntaxErrors then
      ({ result with SyntaxErrors := syntaxErrors,
                     Message := "Source has syntax errors - not saved" },
       [.syntaxCheck objectURL source])
    else
      let result := { result with SyntaxErrors := syntaxErrors }
      match env.lockRes with
      | .error e =>
          ({ result with Message := "Failed to lock object: " ++ e },
           [.syntaxCheck objectURL source, .lock objectURL "MODIFY"])
      | .ok lock =>
        let acquired := [AdtCall.syntaxCheck objectURL source, .lock objectURL "MODIFY"]
        match env.updateSourceRes with
        | some e =>
            ({ result with Message := "Failed to update source: " ++ e },
             acquired ++ [.updateSource sourceURL source lock.LockHandle transport,
                          .unlock objectURL lock.LockHandle])
        | none =>
          let afterPut := acquired ++
            [AdtCall.updateSource sourceURL source lock.LockHandle transport]
          match env.unlockRes with
          | some e =>
              ({ result with Message := "Failed to unlock object: " ++ e },
               afterPut ++ [.unlock objectURL lock.LockHandle,
                            .unlock objectURL lock.LockHandle])
          | none =>
            let afterUnlock := afterPut ++ [AdtCall.unlock objectURL lock.LockHandle]
            match env.activateRes with
            | .error e =>
                ({ result with Message := "Failed to activate: " ++ e },
                 afterUnlock ++ [.activate objectURL className,
                                 .unlock objectURL lock.LockHandle])
            | .ok activation =>
              if activation.Success then
                ({ result with Success := true, Activation := some activation,
                               Message := "Class updated and activated successfully" },
                 afterUnlock ++ [.activate objectURL className])
              else
                ({ result with Activation := some activation,
                               Message := "Activation failed - check activation messages" },
                 afterUnlock ++ [.activate objectURL className,
                                 .unlock objectURL lock.LockHandle])

/-- Embedding of `Client.CreateAndActivateProgram` from workflows.go:
create shell, lock, PUT, unlock, activate, with the deferred
release-on-failure unlock. -/
def CreateAndActivateProgram (env : WorkflowEnv)
    (programName0 description packageName0 source transport : String) :
    CreateProgramResult × List AdtCall :=
  let programName := goUpper programName0
  let packageName := goUpper packageName0
  let objectURL := "/sap/bc/adt/programs/programs/" ++ programName
  let sourceURL := objectURL ++ "/source/main"
  let result : CreateProgramResult := { ProgramName := programName, ObjectURL := objectURL }
  let created := [AdtCall.createObject "PROG/P" programName description packageName transport]
  match env.createObjectRes with
  | some e =>
      ({ result with Message := "Failed to create program: " ++ e }, created)
  | none =>
    match env.lockRes with
    | .error e =>
        ({ result with Message := "Failed to lock object: " ++ e },
         created ++ [.lock objectURL "MODIFY"])
    | .ok lock =>
      let acquired := created ++ [AdtCall.lock objectURL "MODIFY"]
      match env.updateSourceRes with
      | some e =>
          ({ result with Message := "Failed to update source: " ++ e },
           acquired ++ [.updateSource sourceURL source lock.LockHandle transport,
                        .unlock objectURL lock.LockHandle])
      | none =>
        let afterPut := acquired ++
          [AdtCall.updateSource sourceURL source lock.LockHandle transport]
        match env.unlockRes with
        | some e =>
            ({ result with Message := "Failed to unlock object: " ++ e },
             afterPut ++ [.unlock objectURL lock.LockHandle,
                          .unlock objectURL lock.LockHandle])
        | none =>
          let afterUnlock := afterPut ++ [AdtCall.unlock objectURL lock.LockHandle]
          match env.activateRes with
          | .error e =>
              ({ result with Message := "Failed to activate: " ++ e },
               afterUnlock ++ [.activate objectURL programName,
                               .unlock objectURL lock.LockHandle])
          | .ok activation =>
            if activation.Success then
              ({ result with Success := true, Activation := some activation,
                             Message := "Program created and activated successfully" },
               afterUnlock ++ [.activate objectURL programName])
            else
              ({ result with Activation := some activation,
                             Message := "Activation failed - check activation messages" },
               afterUnlock ++ [.activate objectURL programName,
                               .unlock objectURL lock.LockHandle])

/-- Embedding of `Client.CreateClassWithTests` from workflows.go: create
shell, lock, PUT main source, create the testclasses include, PUT test
source, unlock, activate, run unit tests, with the deferred
release-on-failure unlock.  A unit-test run error still reports success
(the class was created). -/
def CreateClassWithTests (env : WorkflowEnv)
    (className0 description packageName0 classSource testSource transport : String) :
    CreateClassWithTestsResult × List AdtCall :=
  let className := goUpper className0
  let packageName := goUpper packageName0
  let objectURL := "/sap/bc/adt/oo/classes/" ++ className
  let sourceURL := objectURL ++ "/source/main"
  let result : CreateClassWithTestsResult := { ClassName := className, ObjectURL := objectURL }
  let created := [AdtCall.createObject "CLAS/OC" className description packageName transport]
  match env.createObjectRes with
  | some e =>
      ({ result with Message := "Failed to create class: " ++ e }, created)
  | none =>
    match env.lockRes with
    | .error e =>
        ({ result with Message := "Failed to lock object: " ++ e },
         created ++ [.lock objectURL "MODIFY"])
    | .ok lock =>
      let acquired := created ++ [AdtCall.lock objectURL "MODIFY"]
      match env.updateSourceRes with
      | some e =>
          ({ result with Message := "Failed to update class source: " ++ e },
           acquired ++ [.updateSource sourceURL classSource lock.LockHandle transport,
                        .unlock objectURL lock.LockHandle])
      | none =>
        let afterPut := acquired ++
          [AdtCall.updateSource sourceURL classSource lock.LockHandle transport]
        match env.createTestIncludeRes with
        | some e =>
            ({ result with Message := "Failed to create test include: " ++ e },
             afterPut ++ [.createTestInclude className lock.LockHandle transport,
                          .unlock objectURL lock.LockHandle])
        | none =>
          let afterInc := afterPut ++ [AdtCall.createTestInclude className lock.LockHandle transport]
          match env.updateClassIncludeRes with
          | some e =>
              ({ result with Message := "Failed to update test source: " ++ e },
               afterInc ++ [.updateClassInclude className "testclasses" testSource lock.LockHandle transport,
                            .unlock objectURL lock.LockHandle])
          | none =>
            let afterTest := afterInc ++
              [AdtCall.updateClassInclude className "testclasses" testSource lock.LockHandle transport]
            match env.unlockRes with
            | some e =>
                ({ result with Message := "Failed to unlock object: " ++ e },
                 afterTest ++ [.unlock objectURL lock.LockHandle,
                               .unlock objectURL lock.LockHandle])
            | none =>
              let afterUnlock := afterTest ++ [AdtCall.unlock objectURL lock.LockHandle]
              match env.activateRes with
              | .error e =>
                  ({ result with Message := "Failed to activate: " ++ e },
                   afterUnlock ++ [.activate objectURL className,
                                   .unlock objectURL lock.LockHandle])
              | .ok activation =>
                if !activation.Success then
                  ({ result with Activation := some activation,
                                 Message := "Activation failed - check activation messages" },
                   afterUnlock ++ [.activate objectURL className,
                                   .unlock objectURL lock.LockHandle])
                else
                  let afterAct := afterUnlock ++ [AdtCall.activate objectURL className]
                  match env.runUnitTestsRes with
                  | .error e =>
                      ({ result with Success := true, Activation := some activation,
                                     Message := "Class activated but unit tests failed to run: " ++ e },
                       afterAct ++ [.runUnitTests objectURL])
                  | .ok testResult =>
                      ({ result with Success := true, Activation := some activation,
                                     UnitTestResult? := some testResult,
                                     Message := "Class created, activated, and unit tests executed successfully" },
                       afterAct ++ [.runUnitTests objectURL])

/-- Environment for the C1 counterexample: every call succeeds but the
activation result reports failure, so the Go `defer` fires after the
explicit step-4 unlock already ran. -/
def envActivationFails : WorkflowEnv :=
  { lockRes := .ok { LockHandle := "H1" }
    activateRes := .ok { Success := false, Messages := [], Inactive := [] } }

/-- Environment in which every workflow step succeeds. -/
def envAllOk : WorkflowEnv :=
  { lockRes := .ok { LockHandle := "LH" } }

/-- Claim C1 counterexample: an execution of `WriteProgram` that acquires the
lock `H1`, uploads and unlocks successfully, but whose activation reports
failure, issues two Unlock calls for `H1` (the explicit step-4 unlock and the
deferred release-on-failure unlock), not exactly one. -/
theorem c1_exactly_one_unlock_counterexample :
    envActivationFails.lockRes = .ok { LockHandle := "H1" } ∧
    ((WriteProgram envActivationFails "ztest" "REPORT ztest." "").2.filter
        (isUnlockFor "H1")).length = 2 := by
  constructor
  · rfl
  · rfl

/-- Claim C1 as amended: in every execution of the four workflows that
successfully acquires a lock handle, at least one and at most two Unlock
calls are issued for that handle by the time the workflow returns, whether
the workflow succeeds or fails (exactly one on the success path; a second,
idempotent unlock can be issued by the deferred release when a later step
fails). -/
theorem c1_amended_lock_released_on_all_paths :
    (∀ (env : WorkflowEnv) (n src t : String) (lk : LockResult),
      env.lockRes = .ok lk →
      (WriteProgram env n src t).2.any isLockCall = true →
      1 ≤ ((WriteProgram env n src t).2.filter (isUnlockFor lk.LockHandle)).length ∧
      ((WriteProgram env n src t).2.filter (isUnlockFor lk.LockHandle)).length ≤ 2) ∧
    (∀ (env : WorkflowEnv) (n src t : String) (lk : LockResult),
      env.lockRes = .ok lk →
      (WriteClass env n src t).2.any isLockCall = true →
      1 ≤ ((WriteClass env n src t).2.filter (isUnlockFor lk.LockHandle)).length ∧
      ((WriteClass env n src t).2.filter (isUnlockFor lk.LockHandle)).length ≤ 2) ∧
    (∀ (env : WorkflowEnv) (n d p src t : String) (lk : LockResult),
      env.lockRes = .ok lk →
      (CreateAndActivateProgram env n d p src t).2.any isLockCall = true →
      1 ≤ ((CreateAndActivateProgram env n d p src t).2.filter
            (isUnlockFor lk.LockHandle)).length ∧
      ((CreateAndActivateProgram env n d p src t).2.filter
            (isUnlockFor lk.LockHandle)).length ≤ 2) ∧
    (∀ (env : WorkflowEnv) (n d p src tsrc t : String) (lk : LockResult),
      env.lockRes = .ok lk →
      (CreateClassWithTests env n d p src tsrc t).2.any isLockCall = true →
      1 ≤ ((CreateClassWithTests env n d p src tsrc t).2.filter
            (isUnlockFor lk.LockHandle)).length ∧
      ((CreateClassWithTests env n d p src tsrc t).2.filter
            (isUnlockFor lk.LockHandle)).length ≤ 2) := by
  refine ⟨?_, ?_, ?_, ?_⟩
  · intro env n src t lk hlk hlock
    obtain ⟨sc, lr, up, un, act, co, cti, uci, rut⟩ := env
    simp only at hlk
    subst hlk
    rcases sc with e | diags
    · simp [WriteProgram, isLockCall] at hlock
    · by_cases hsev : hasBlockingSeverity diags
      · simp [WriteProgram, hsev, isLockCall] at hlock
      · rcases up with _ | e1
        · rcases un with _ | e2
          · rcases act with e3 | a
            · simp [WriteProgram, hsev, isUnlockFor]
            · by_cases hsucc : a.Success
              · simp [WriteProgram, hsev, hsucc, isUnlockFor]
              · simp [WriteProgram, hsev, hsucc, isUnlockFor]
          · simp [WriteProgram, hsev, isUnlockFor]
        · simp [WriteProgram, hsev, isUnlockFor]
  · intro env n src t lk hlk hlock
    obtain ⟨sc, lr, up, un, act, co, cti, uci, rut⟩ := env
    simp only at hlk
    subst hlk
    rcases sc with e | diags
    · simp [WriteClass, isLockCall] at hlock
    · by_cases hsev : hasBlockingSeverity diags
      · simp [WriteClass, hsev, isLockCall] at hlock
      · rcases up with _ | e1
        · rcases un with _ | e2
          · rcases act with e3 | a
            · simp [WriteClass, hsev, isUnlockFor]
            · by_cases hsucc : a.Success
              · simp [WriteClass, hsev, hsucc, isUnlockFor]
              · simp [WriteClass, hsev, hsucc, isUnlockFor]
          · simp [WriteClass, hsev, isUnlockFor]
        · simp [WriteClass, hsev, isUnlockFor]
  · intro env n d p src t lk hlk hlock
    obtain ⟨sc, lr, up, un, act, co, cti, uci, rut⟩ := env
    simp only at hlk
    subst hlk
    rcases co with _ | e0
    · rcases up with _ | e1
      · rcases un with _ | e2
        · rcases act with e3 | a
          · simp [CreateAndActivateProgram, isUnlockFor]
          · by_cases hsucc : a.Success
            · simp [CreateAndActivateProgram, hsucc, isUnlockFor]
            · simp [CreateAndActivateProgram, hsucc, isUnlockFor]
        · simp [CreateAndActivateProgram, isUnlockFor]
      · simp [CreateAndActivateProgram, isUnlockFor]
    · simp [CreateAndActivateProgram, isLockCall] at hlock
  · intro env n d p src tsrc t lk hlk hlock
    obtain ⟨sc, lr, up, un, act, co, cti, uci, rut⟩ := env
    simp only at hlk
    subst hlk
    rcases co with _ | e0
    · rcases up with _ | e1
      · rcases cti with _ | e4
        · rcases uci with _ | e5
          · rcases un with _ | e2
            · rcases act with e3 | a
              · simp [CreateClassWithTests, isUnlockFor]
              · by_cases hsucc : a.Success
                · rcases rut with e6 | tres
                  · simp [CreateClassWithTests, hsucc, isUnlockFor]
                  · simp [CreateClassWithTests, hsucc, isUnlockFor]
                · simp [CreateClassWithTests, hsucc, isUnlockFor]
            · simp [CreateClassWithTests, isUnlockFor]
          · simp [CreateClassWithTests, isUnlockFor]
        · simp [CreateClassWithTests, isUnlockFor]
      · simp [CreateClassWithTests, isUnlockFor]
    · simp [CreateClassWithTests, isLockCall] at hlock

/-- Witness for the amended C1 at a concrete all-success environment: the
lock `LH` is acquired and the unlock count lies between one and two. -/
theorem c1_amended_lock_released_witness :
    1 ≤ ((WriteProgram envAllOk "zt" "REPORT zt." "").2.filter (isUnlockFor "LH")).length ∧
    ((WriteProgram envAllOk "zt" "REPORT zt." "").2.filter (isUnlockFor "LH")).length ≤ 2 :=
  c1_amended_lock_released_on_all_paths.1 envAllOk "zt" "REPORT zt." ""
    { LockHandle := "LH" } rfl (by decide)

/-- Claim C4: when the initial syntax check of `WriteProgram` or `WriteClass`
reports a diagnostic of severity `E`, `A` or `X`, the workflow returns
without saving: success is false, the result carries the diagnostics, and
the trace is the single syntax-check call (no Lock, no PUT). -/
theorem c4_syntax_errors_return_without_saving :
    ∀ (env : WorkflowEnv) (n src t : String) (diags : List SyntaxCheckResult),
      env.syntaxCheckRes = .ok diags → hasBlockingSeverity diags = true →
      ((WriteProgram env n src t).1.Success = false ∧
       (WriteProgram env n src t).1.SyntaxErrors = diags ∧
       (WriteProgram env n src t).1.Message = "Source has syntax errors - not saved" ∧
       (WriteProgram env n src t).2 =
         [.syntaxCheck ("/sap/bc/adt/programs/programs/" ++ goUpper n) src] ∧
       (WriteProgram env n src t).2.all
         (fun c => !isLockCall c && !isUpdateSourceCall c) = true) ∧
      ((WriteClass env n src t).1.Success = false ∧
       (WriteClass env n src t).1.SyntaxErrors = diags ∧
       (WriteClass env n src t).1.Message = "Source has syntax errors - not saved" ∧
       (WriteClass env n src t).2 =
         [.syntaxCheck ("/sap/bc/adt/oo/classes/" ++ goUpper n) src] ∧
       (WriteClass env n src t).2.all
         (fun c => !isLockCall c && !isUpdateSourceCall c) = true) := by
  intro env n src t diags hsc hsev
  refine ⟨?_, ?_⟩ <;>
    simp [WriteProgram, WriteClass, hsc, hsev, isLockCall, isUpdateSourceCall]

/-- Witness for C4 at a concrete environment whose syntax check returns one
`E` diagnostic: `WriteProgram` reports failure without saving. -/
theorem c4_syntax_errors_return_without_saving_witness :
    hasBlockingSeverity [{ Severity := "E" }] = true ∧
    (WriteProgram { syntaxCheckRes := .ok [{ Severity := "E" }] } "zt" "x" "").1.Success = false :=
  ⟨by decide,
   (c4_syntax_errors_return_without_saving
      { syntaxCheckRes := .ok [{ Severity := "E" }] } "zt" "x" ""
      [{ Severity := "E" }] rfl (by decide)).1.1⟩

/- ### Deployment ordering (embedded/deps/embed.go) -/

/-- Embedding of `ABAPFile` from embed.go. -/
structure ABAPFile where
  Path : String := ""
  Filename : String := ""
  ObjectType : String := ""
  ObjectName : String := ""
  IncludeType : String := ""
  IsXML : Bool := false
  Content : String := ""
deriving DecidableEq

/-- The `typePriority` map of `DeploymentOrder` (a Go map lookup; a missing
entry reads as the zero value 0). -/
def typePriority (t : String) : Nat :=
  if t == "INTF" then 1 else if t == "DOMA" then 2 else if t == "DTEL" then 3
  else if t == "TABL" then 4 else if t == "DDLS" then 5 else if t == "CLAS" then 6
  else if t == "PROG" then 7 else if t == "FUGR" then 8 else if t == "FUNC" then 9
  else if t == "BDEF" then 10 else if t == "SRVD" then 11 else if t == "SRVB" then 12
  else 0

/-- The `includePriority` map of `DeploymentOrder` (missing entry reads 0). -/
def includePriority (t : String) : Nat :=
  if t == "" then 1 else if t == "locals_def" then 2 else if t == "locals_imp" then 3
  else if t == "macros" then 4 else if t == "testclasses" then 5 else 0

/-- The comparison closure passed to `sort.SliceStable` inside
`DeploymentOrder`: XML flag first (source before XML), then type priority
(missing priority promoted to 99), then object name, then include
priority. -/
def fileLess (fi fj : ABAPFile) : Bool :=
  if fi.IsXML != fj.IsXML then !fi.IsXML
  else
    let pti0 := typePriority fi.ObjectType
    let ptj0 := typePriority fj.ObjectType
    let pti := if pti0 == 0 then 99 else pti0
    let ptj := if ptj0 == 0 then 99 else ptj0
    if pti != ptj then decide (pti < ptj)
    else if fi.ObjectName != fj.ObjectName then decide (fi.ObjectName < fj.ObjectName)
    else decide (includePriority fi.IncludeType < includePriority fj.IncludeType)

/-- The type priority actually compared by `fileLess`: `DeploymentOrder`
turns the missing-entry 0 into 99 so unknown types sort last. -/
def effectivePriority (t : String) : Nat :=
  if typePriority t == 0 then 99 else typePriority t

/-- The sort key realised by `fileLess`, as a lexicographic tuple: XML rank,
effective type priority, object name, include priority. -/
def fileKey (f : ABAPFile) : ℕ ×ₗ (ℕ ×ₗ (String ×ₗ ℕ)) :=
  toLex ((if f.IsXML then 1 else 0),
    toLex (effectivePriority f.ObjectType,
      toLex (f.ObjectName, includePriority f.IncludeType)))

/-- The comparator of `DeploymentOrder` is the strict lexicographic order on
`fileKey`. -/
theorem fileLess_iff_keyLt (a b : ABAPFile) :
    fileLess a b = true ↔ fileKey a < fileKey b := by
  unfold fileLess fileKey effectivePriority
  cases hxa : a.IsXML <;> cases hxb : b.IsXML <;>
    simp only [hxa, hxb, bne_self_eq_false, Bool.false_bne, Bool.true_bne, Bool.not_true,
      Bool.not_false, if_true, if_false, Prod.Lex.lt_iff, toLex_inj, Prod.mk.injEq]
  all_goals try split_ifs
  all_goals simp_all [bne_iff_ne, decide_eq_true_eq, lt_self_iff_false]

/-- The non-strict order under which `sort.SliceStable` leaves neighbours:
`a` need not come after `b`. -/
def fleLe (a b : ABAPFile) : Prop := fileLess b a = false

instance : DecidableRel fleLe := fun a b => inferInstanceAs (Decidable (fileLess b a = false))

/-- `fleLe` is the non-strict lexicographic order on `fileKey`. -/
theorem fleLe_iff_keyLe (a b : ABAPFile) : fleLe a b ↔ fileKey a ≤ fileKey b := by
  unfold fleLe
  rw [← not_lt]
  constructor
  · intro h hlt
    rw [← fileLess_iff_keyLt] at hlt
    simp [h] at hlt
  · intro h
    by_contra hne
    exact h ((fileLess_iff_keyLt b a).mp (by simpa using hne))

instance : IsTotal ABAPFile fleLe :=
  ⟨fun a b => by rw [fleLe_iff_keyLe, fleLe_iff_keyLe]; exact le_total _ _⟩

instance : IsTrans ABAPFile fleLe :=
  ⟨fun a b c hab hbc => by
    rw [fleLe_iff_keyLe] at hab hbc ⊢
    exact le_trans hab hbc⟩

/-- Embedding of `DeploymentOrder` from embed.go.  Go's `sort.SliceStable`
with comparator `fileLess` is modelled as a stable insertion sort under
`fleLe`; for a comparator that (like `fileLess`) is a strict weak order,
every stable sort produces this same output. -/
def DeploymentOrder (files : List ABAPFile) : List ABAPFile :=
  List.insertionSort fleLe files

/-- The ordering of claim C7 as amended: the metadata flag is the primary
key (every source file before every XML metadata file), then the fixed type
priority, then the object name, then the include order main, locals_def,
locals_imp, macros, testclasses. -/
def amendedFileLt (a b : ABAPFile) : Prop :=
  (¬ a.IsXML ∧ b.IsXML) ∨
  (a.IsXML = b.IsXML ∧
    (effectivePriority a.ObjectType < effectivePriority b.ObjectType ∨
      (effectivePriority a.ObjectType = effectivePriority b.ObjectType ∧
        (a.ObjectName < b.ObjectName ∨
          (a.ObjectName = b.ObjectName ∧
            includePriority a.IncludeType < includePriority b.IncludeType)))))

/-- The amended ordering coincides with the comparator's key order. -/
theorem amendedFileLt_iff_keyLt (a b : ABAPFile) :
    amendedFileLt a b ↔ fileKey a < fileKey b := by
  unfold amendedFileLt fileKey
  cases hxa : a.IsXML <;> cases hxb : b.IsXML <;>
    simp [hxa, hxb, Prod.Lex.lt_iff]

/-- The ordering exactly as claim C7 states it: type priority first, then
object name, and only within one object's group the source before the XML
metadata and the includes in their fixed order. -/
def claimFileLt (a b : ABAPFile) : Prop :=
  effectivePriority a.ObjectType < effectivePriority b.ObjectType ∨
  (effectivePriority a.ObjectType = effectivePriority b.ObjectType ∧
    (a.ObjectName < b.ObjectName ∨
      (a.ObjectName = b.ObjectName ∧
        ((¬ a.IsXML ∧ b.IsXML) ∨
          (a.IsXML = b.IsXML ∧
            includePriority a.IncludeType < includePriority b.IncludeType)))))

instance (a b : ABAPFile) : Decidable (claimFileLt a b) := by
  unfold claimFileLt; infer_instance

instance (a b : ABAPFile) : Decidable (amendedFileLt a b) := by
  unfold amendedFileLt; infer_instance

/-- A source file of type PROG. -/
def fSourceProg : ABAPFile := { ObjectType := "PROG", ObjectName := "ZPROG", IsXML := false }

/-- An XML metadata file of type INTF. -/
def fXmlIntf : ABAPFile := { ObjectType := "INTF", ObjectName := "ZIF", IsXML := true }

/-- Claim C7 counterexample: the claimed ordering puts the INTF metadata
file before the PROG source file (type priority first), but `DeploymentOrder`
puts every source file before every XML file, so its output is not sorted by
the claimed ordering. -/
theorem c7_type_priority_first_counterexample :
    DeploymentOrder [fSourceProg, fXmlIntf] = [fSourceProg, fXmlIntf] ∧
    claimFileLt fXmlIntf fSourceProg ∧
    ¬ (DeploymentOrder [fSourceProg, fXmlIntf]).Pairwise (fun x y => ¬ claimFileLt y x) := by
  refine ⟨by decide, by decide, by decide⟩

/-- Claim C7 as amended: `DeploymentOrder` returns a permutation of its
input, sorted under the comparator order, and that comparator is exactly
the lexicographic ordering with the metadata flag first (all sources before
all XML metadata), then the fixed type-priority map (unknown types last),
then the object name, then the include order main, locals_def, locals_imp,
macros, testclasses. -/
theorem c7_deployment_order_amended :
    (∀ files : List ABAPFile, (DeploymentOrder files).Perm files) ∧
    (∀ files : List ABAPFile, (DeploymentOrder files).Sorted fleLe) ∧
    (∀ a b : ABAPFile, fileLess a b = true ↔ amendedFileLt a b) ∧
    (∀ a b : ABAPFile, fleLe a b ↔ ¬ amendedFileLt b a) := by
  refine ⟨fun files => List.perm_insertionSort fleLe files,
          fun files => List.sorted_insertionSort fleLe files,
          fun a b => (fileLess_iff_keyLt a b).trans (amendedFileLt_iff_keyLt a b).symm,
          fun a b => ?_⟩
  rw [fleLe_iff_keyLe, amendedFileLt_iff_keyLt]
  exact not_lt.symm

/- ### Deployment handler (handlers_deploy.go) and plan building (embed.go) -/

/-- Model of Go `strings.ToLower` (character-wise, as for `goUpper`). -/
def goLower (s : String) : String :=
  String.mk (s.data.map Char.toLower)

/-- Model of `strings.ReplaceAll(s, "*", "")` as used by the deploy name
filter: every `*` is removed. -/
def goStripStars (s : String) : String :=
  String.mk (s.data.filter (fun c => c != '*'))

/-- Helper for `ExtractDescription`: leftmost match of the
`<DESCRIPT>...</DESCRIPT>` regular expression, capturing the nonempty
`<`-free run between the tags. -/
def scanDescript : List Char → Option (List Char)
  | [] => none
  | c :: rest =>
    if "<DESCRIPT>".data.isPrefixOf (c :: rest) then
      let after := (c :: rest).drop 10
      let run := after.takeWhile (fun ch => ch != '<')
      let rest2 := after.dropWhile (fun ch => ch != '<')
      if run.isEmpty then scanDescript rest
      else if "</DESCRIPT>".data.isPrefixOf rest2 then some run
      else scanDescript rest
    else scanDescript rest

/-- Embedding of `ExtractDescription` from embed.go. -/
def ExtractDescription (xmlContent : String) : String :=
  match scanDescript xmlContent.data with
  | some run => String.mk run
  | none => ""

/-- Embedding of `DeploymentObject` from embed.go (the Go field `Type` is
spelled `Typ`; the Go map `Includes` is an association list in insertion
order). -/
structure DeploymentObject where
  Typ : String := ""
  Name : String := ""
  Description : String := ""
  MainSource : String := ""
  Includes : List (String × String) := []
  XMLMetadata : String := ""
deriving DecidableEq

/-- Embedding of `DeploymentPlan` from embed.go. -/
structure DeploymentPlan where
  Dependency : String := ""
  Package : String := ""
  TotalFiles : Nat := 0
  TotalObjects : Nat := 0
  Objects : List DeploymentObject := []
deriving DecidableEq

/-- The group key `ObjectType + "/" + ObjectName` of `GroupByObject`. -/
def objKey (f : ABAPFile) : String :=
  f.ObjectType ++ "/" ++ f.ObjectName

/-- Embedding of `GroupByObject` from embed.go as a lookup: the files of one
group, in input order. -/
def GroupByObject (files : List ABAPFile) (key : String) : List ABAPFile :=
  files.filter (fun f => objKey f == key)

/-- A Go map assignment `m[k] = v` on an association list. -/
def updateAssoc (l : List (String × String)) (k v : String) : List (String × String) :=
  if l.any (fun p => p.1 == k) then l.map (fun p => if p.1 == k then (k, v) else p)
  else l ++ [(k, v)]

/-- The per-group loop of `CreateDeploymentPlan`: attach metadata (with
extracted description), main source and includes to the object. -/
def buildDeploymentObject (typ name : String) (objFiles : List ABAPFile) : DeploymentObject :=
  objFiles.foldl (fun obj of =>
    if of.IsXML then
      { obj with XMLMetadata := of.Content, Description := ExtractDescription of.Content }
    else if of.IncludeType == "" then { obj with MainSource := of.Content }
    else { obj with Includes := updateAssoc obj.Includes of.IncludeType of.Content })
    { Typ := typ, Name := name }

/-- The deduplicating object-collection loop of `CreateDeploymentPlan`:
walk the sorted files, emitting each object once, built from its group. -/
def collectObjects (sorted : List ABAPFile) : List ABAPFile → List String → List DeploymentObject
  | [], _ => []
  | f :: rest, added =>
    let key := objKey f
    if added.contains key then collectObjects sorted rest added
    else
      buildDeploymentObject f.ObjectType f.ObjectName (GroupByObject sorted key) ::
        collectObjects sorted rest (key :: added)

/-- Embedding of `CreateDeploymentPlan` from embed.go. -/
def CreateDeploymentPlan (depName packageName : String) (files : List ABAPFile) :
    DeploymentPlan :=
  let sorted := DeploymentOrder files
  { Dependency := depName
    Package := packageName
    TotalFiles := files.length
    TotalObjects := (files.map objKey).dedup.length
    Objects := collectObjects sorted sorted [] }

/-- Embedding of `objectTypeMapping` from handlers_deploy.go: the creatable
type and the URL pattern (all patterns end in `%s`, kept as the prefix). -/
def objectTypeMapping (t : String) : Option (String × String) :=
  if t == "PROG" then some ("PROG/P", "/sap/bc/adt/programs/programs/")
  else if t == "CLAS" then some ("CLAS/OC", "/sap/bc/adt/oo/classes/")
  else if t == "INTF" then some ("INTF/OI", "/sap/bc/adt/oo/interfaces/")
  else if t == "DDLS" then some ("DDLS/DF", "/sap/bc/adt/ddic/ddl/sources/")
  else if t == "BDEF" then some ("BDEF/BDO", "/sap/bc/adt/bo/behaviordefinitions/")
  else if t == "SRVD" then some ("SRVD/SRV", "/sap/bc/adt/ddic/srvd/sources/")
  else none

/-- The arguments of `handleDeployZip`, already extracted from the tool
request. -/
structure DeployArgs where
  source : String := ""
  packageName : String := ""
  dryRun : Bool := false
  typeFilter : String := ""
  nameFilter : String := ""

/-- The environment of one `handleDeployZip` run.  `zipFiles` combines
`GetDependencyZIP` (whose embedded ZIP assets are build-time placeholders in
the source) with `UnzipInMemory`: `none` when no ZIP is available, otherwise
the unzip outcome.  `pathEscape` stands for Go `url.PathEscape`, whose
byte-level escaping no claim depends on. -/
structure DeployEnv where
  zipFiles : Option (Except String (List ABAPFile)) := none
  pathEscape : String → String := fun s => s
  getPackageFound : Bool := true
  createPackageRes : Option String := none
  createObjectRes : DeploymentObject → Option String := fun _ => none
  lockRes : DeploymentObject → Except String LockResult := fun _ => .ok {}
  updateSourceRes : DeploymentObject → Option String := fun _ => none

/-- The outcome of `handleDeployZip`, abstracting the human-readable report
text to its decision structure. -/
inductive DeployOutcome where
  | errorText (msg : String)
  | planOnly (deployable skipped : List DeploymentObject)
  | nothingToDeploy (skipped : List DeploymentObject)
  | completed (counters1 : Nat × Nat × Nat) (counters2 : Nat × Nat)
      (uploadFailures : List String)
deriving DecidableEq

/-- The filter-and-classify loop of `handleDeployZip`: apply the type and
name filters, then split into deployable (type in `objectTypeMapping`) and
skipped objects. -/
def classifyObjects (typeFilter nameFilter : String) (objects : List DeploymentObject) :
    List DeploymentObject × List DeploymentObject :=
  objects.foldl (fun acc obj =>
    if (typeFilter != "") && (obj.Typ != typeFilter) then acc
    else if (nameFilter != "") && !(goContains obj.Name (goStripStars nameFilter)) then acc
    else if (objectTypeMapping obj.Typ).isSome then (acc.1 ++ [obj], acc.2)
    else (acc.1, acc.2 ++ [obj])) ([], [])

/-- Phase-1 counters of `handleDeployZip`. -/
structure Phase1Counters where
  createSuccess : Nat := 0
  createSkipped : Nat := 0
  createFailed : Nat := 0
deriving DecidableEq

/-- Phase 1 of `handleDeployZip`: create every deployable object's shell,
tolerating `AlreadyExists`. -/
def phase1 (env : DeployEnv) (packageName : String) :
    List DeploymentObject → Phase1Counters × List AdtCall
  | [] => ({}, [])
  | obj :: rest =>
    match objectTypeMapping obj.Typ with
    | none => phase1 env packageName rest
    | some (ctype, _) =>
      let desc := if obj.Description == "" then obj.Name else obj.Description
      let call := AdtCall.createObject ctype obj.Name desc packageName ""
      let (cnt, tr) := phase1 env packageName rest
      match env.createObjectRes obj with
      | none => ({ cnt with createSuccess := cnt.createSuccess + 1 }, call :: tr)
      | some e =>
        if goContains e "AlreadyExists" || goContains e "already exist" then
          ({ cnt with createSkipped := cnt.createSkipped + 1 }, call :: tr)
        else
          ({ cnt with createFailed := cnt.createFailed + 1 }, call :: tr)

/-- Phase-2 per-object outcome. -/
inductive Phase2ObjResult where
  | skipped
  | uploaded
  | failed (reason : String)
deriving DecidableEq

/-- Phase-2 counters of `handleDeployZip`. -/
structure Phase2Counters where
  uploadSuccess : Nat := 0
  uploadFailed : Nat := 0
  uploadFailures : List String := []
deriving DecidableEq

/-- One phase-2 iteration of `handleDeployZip`: Lock, then PUT of the main
source, then Unlock.  On lock failure the object is recorded as failed; on
PUT failure the unlock is still attempted before the failure is recorded; a
failing final unlock is only logged (the object still counts as uploaded).
No syntax check is issued. -/
def phase2One (env : DeployEnv) (obj : DeploymentObject) :
    Phase2ObjResult × List AdtCall :=
  match objectTypeMapping obj.Typ with
  | none => (.skipped, [])
  | some (_, urlPre) =>
    let encodedName := env.pathEscape (goLower obj.Name)
    let objectURL := urlPre ++ encodedName
    let sourceURL := objectURL ++ "/source/main"
    match env.lockRes obj with
    | .error e =>
        (.failed (obj.Typ ++ " " ++ obj.Name ++ ": lock failed: " ++ e),
         [.lock objectURL "MODIFY",
          .recordUploadFailure (obj.Typ ++ " " ++ obj.Name ++ ": lock failed: " ++ e)])
    | .ok lockResult =>
      match env.updateSourceRes obj with
      | some e =>
          (.failed (obj.Typ ++ " " ++ obj.Name ++ ": upload failed: " ++ e),
           [.lock objectURL "MODIFY",
            .updateSource sourceURL obj.MainSource lockResult.LockHandle "",
            .unlock objectURL lockResult.LockHandle,
            .recordUploadFailure (obj.Typ ++ " " ++ obj.Name ++ ": upload failed: " ++ e)])
      | none =>
          (.uploaded,
           [.lock objectURL "MODIFY",
            .updateSource sourceURL obj.MainSource lockResult.LockHandle "",
            .unlock objectURL lockResult.LockHandle])

/-- Phase 2 of `handleDeployZip` over the deployable objects, accumulating
counters, the recorded failures (in object order) and the call trace. -/
def phase2 (env : DeployEnv) : List DeploymentObject → Phase2Counters × List AdtCall
  | [] => ({}, [])
  | obj :: rest =>
    let (r, tr) := phase2One env obj
    let (cnt, trRest) := phase2 env rest
    match r with
    | .skipped => (cnt, tr ++ trRest)
    | .uploaded => ({ cnt with uploadSuccess := cnt.uploadSuccess + 1 }, tr ++ trRest)
    | .failed msg =>
        ({ cnt with uploadFailed := cnt.uploadFailed + 1,
                    uploadFailures := msg :: cnt.uploadFailures }, tr ++ trRest)

/-- Embedding of `handleDeployZip` from handlers_deploy.go: argument checks,
ZIP lookup and parse, plan building, filtering, the dry-run return, the
nothing-to-deploy return, the package check/create, then phases 1 to 3.
The report string the Go code accumulates is abstracted to the outcome. -/
def handleDeployZip (env : DeployEnv) (args : DeployArgs) :
    DeployOutcome × List AdtCall :=
  if args.source == "" then
    (.errorText "source is required (e.g., 'abapgit-standalone', 'abapgit-full')", [])
  else if args.packageName == "" then
    (.errorText "package is required (e.g., '$ZGIT')", [])
  else
    let packageName := goUpper args.packageName
    let typeFilter := goUpper args.typeFilter
    let nameFilter := goUpper args.nameFilter
    match env.zipFiles with
    | none =>
        (.errorText ("Source '" ++ args.source ++ "' not found. Available: "), [])
    | some (.error e) =>
        (.errorText ("Failed to parse ZIP: " ++ e), [])
    | some (.ok files) =>
      let plan := CreateDeploymentPlan args.source packageName files
      let (deployable, skipped) := classifyObjects typeFilter nameFilter plan.Objects
      if args.dryRun then (.planOnly deployable skipped, [])
      else if deployable.length == 0 then (.nothingToDeploy skipped, [])
      else
        let pkgCreate := AdtCall.createObject "DEVC/K" packageName
          ("Deployed from " ++ args.source) "" ""
        let pkgStep : Except (DeployOutcome × List AdtCall) (List AdtCall) :=
          if env.getPackageFound then .ok [AdtCall.getPackage packageName]
          else
            match env.createPackageRes with
            | none => .ok [AdtCall.getPackage packageName, pkgCreate]
            | some e =>
              if goContains e "AlreadyExists" || goContains e "already exist" then
                .ok [AdtCall.getPackage packageName, pkgCreate]
              else
                .error (.errorText ("Failed to create package: " ++ e),
                        [AdtCall.getPackage packageName, pkgCreate])
        match pkgStep with
        | .error r => r
        | .ok t0 =>
          let (p1, t1) := phase1 env packageName deployable
          let (p2, t2) := phase2 env deployable
          (.completed (p1.createSuccess, p1.createSkipped, p1.createFailed)
              (p2.uploadSuccess, p2.uploadFailed) p2.uploadFailures,
           t0 ++ t1 ++ t2 ++ [AdtCall.activatePackageIterative packageName 5])

/-- Claim C5: deployment Phase 2 issues, per deployable object, Lock then
PUT of the main source then Unlock; no syntax-check request appears anywhere
in the phase; when the PUT fails the Unlock is still attempted on the
acquired handle before the failure is recorded; when the Lock itself fails,
only the lock attempt is issued and the failure recorded. -/
theorem c5_phase2_lock_put_unlock_no_syntax_check :
    (∀ (env : DeployEnv) (objs : List DeploymentObject),
      (phase2 env objs).2.all (fun c => !isSyntaxCheckCall c) = true) ∧
    (∀ (env : DeployEnv) (objs : List DeploymentObject),
      (phase2 env objs).2 = objs.flatMap (fun obj => (phase2One env obj).2)) ∧
    (∀ (env : DeployEnv) (obj : DeploymentObject) (ct up : String) (lk : LockResult),
      objectTypeMapping obj.Typ = some (ct, up) →
      env.lockRes obj = .ok lk → env.updateSourceRes obj = none →
      (phase2One env obj).2 =
        [.lock (up ++ env.pathEscape (goLower obj.Name)) "MODIFY",
         .updateSource (up ++ env.pathEscape (goLower obj.Name) ++ "/source/main")
           obj.MainSource lk.LockHandle "",
         .unlock (up ++ env.pathEscape (goLower obj.Name)) lk.LockHandle]) ∧
    (∀ (env : DeployEnv) (obj : DeploymentObject) (ct up e : String) (lk : LockResult),
      objectTypeMapping obj.Typ = some (ct, up) →
      env.lockRes obj = .ok lk → env.updateSourceRes obj = some e →
      (phase2One env obj).2 =
        [.lock (up ++ env.pathEscape (goLower obj.Name)) "MODIFY",
         .updateSource (up ++ env.pathEscape (goLower obj.Name) ++ "/source/main")
           obj.MainSource lk.LockHandle "",
         .unlock (up ++ env.pathEscape (goLower obj.Name)) lk.LockHandle,
         .recordUploadFailure (obj.Typ ++ " " ++ obj.Name ++ ": upload failed: " ++ e)] ∧
      (phase2One env obj).1 =
        .failed (obj.Typ ++ " " ++ obj.Name ++ ": upload failed: " ++ e)) ∧
    (∀ (env : DeployEnv) (obj : DeploymentObject) (ct up e : String),
      objectTypeMapping obj.Typ = some (ct, up) →
      env.lockRes obj = .error e →
      (phase2One env obj).2 =
        [.lock (up ++ env.pathEscape (goLower obj.Name)) "MODIFY",
         .recordUploadFailure (obj.Typ ++ " " ++ obj.Name ++ ": lock failed: " ++ e)]) := by
  refine ⟨?_, ?_, ?_, ?_, ?_⟩
  · intro env objs
    induction objs with
    | nil => simp [phase2]
    | cons obj rest ih =>
        rcases hm : objectTypeMapping obj.Typ with _ | ⟨ct, up⟩ <;>
          rcases hl : env.lockRes obj with e | lk <;>
          rcases hu : env.updateSourceRes obj with _ | e2 <;>
          simp_all [phase2, phase2One, isSyntaxCheckCall]
  · intro env objs
    induction objs with
    | nil => simp [phase2]
    | cons obj rest ih =>
        rcases hr : phase2One env obj with ⟨r, tr⟩
        rcases r <;> simp [phase2, hr, ih]
  · intro env obj ct up lk h1 h2 h3
    simp [phase2One, h1, h2, h3]
  · intro env obj ct up e lk h1 h2 h3
    simp [phase2One, h1, h2, h3]
  · intro env obj ct up e h1 h2
    simp [phase2One, h1, h2]

/-- Witness for C5 at a concrete deployable object and all-success
environment: Phase 2 issues exactly Lock, PUT, Unlock for it. -/
theorem c5_phase2_witness :
    (phase2One {} { Typ := "PROG", Name := "ZX" }).2 =
      [.lock "/sap/bc/adt/programs/programs/zx" "MODIFY",
       .updateSource "/sap/bc/adt/programs/programs/zx/source/main" "" "" "",
       .unlock "/sap/bc/adt/programs/programs/zx" ""] :=
  c5_phase2_lock_put_unlock_no_syntax_check.2.2.1 {} { Typ := "PROG", Name := "ZX" }
    "PROG/P" "/sap/bc/adt/programs/programs/" {} rfl rfl rfl

/-- Claim C6: a deployment run with `dry_run=true` issues no call at all
(hence zero network requests), and when the ZIP is present and parses it
returns the deployment plan: the filtered deployable and skipped sets. -/
theorem c6_dry_run_zero_network_requests :
    (∀ (env : DeployEnv) (args : DeployArgs), args.dryRun = true →
      (handleDeployZip env args).2 = []) ∧
    (∀ (env : DeployEnv) (args : DeployArgs), args.dryRun = true →
      ((handleDeployZip env args).2.filter (fun c => c.isNetworkRequest)).length = 0) ∧
    (∀ (env : DeployEnv) (args : DeployArgs) (files : List ABAPFile),
      args.dryRun = true → args.source ≠ "" → args.packageName ≠ "" →
      env.zipFiles = some (.ok files) →
      (handleDeployZip env args).1 =
        .planOnly
          (classifyObjects (goUpper args.typeFilter) (goUpper args.nameFilter)
            (CreateDeploymentPlan args.source (goUpper args.packageName) files).Objects).1
          (classifyObjects (goUpper args.typeFilter) (goUpper args.nameFilter)
            (CreateDeploymentPlan args.source (goUpper args.packageName) files).Objects).2) := by
  have key : ∀ (env : DeployEnv) (args : DeployArgs), args.dryRun = true →
      (handleDeployZip env args).2 = [] := by
    intro env args hdry
    by_cases h1 : args.source = ""
    · simp [handleDeployZip, h1]
    · by_cases h2 : args.packageName = ""
      · simp [handleDeployZip, h1, h2]
      · rcases hz : env.zipFiles with _ | (e | files) <;>
          simp [handleDeployZip, h1, h2, hz, hdry]
  refine ⟨key, ?_, ?_⟩
  · intro env args hdry
    rw [key env args hdry]
    rfl
  · intro env args files hdry hsrc hpkg hz
    simp [handleDeployZip, hsrc, hpkg, hz, hdry]

/-- Witness for C6 at a concrete dry run over an empty parsed archive: the
outcome is the (empty) plan, and the trace is empty. -/
theorem c6_dry_run_witness :
    (handleDeployZip { zipFiles := some (.ok ([] : List ABAPFile)) }
        { source := "abapgit-standalone", packageName := "$zgit", dryRun := true }).1 =
      .planOnly [] [] ∧
    (handleDeployZip { zipFiles := some (.ok ([] : List ABAPFile)) }
        { source := "abapgit-standalone", packageName := "$zgit", dryRun := true }).2 = [] := by
  constructor
  · have h := c6_dry_run_zero_network_requests.2.2
      { zipFiles := some (.ok []) }
      { source := "abapgit-standalone", packageName := "$zgit", dryRun := true } [] rfl
      (by decide) (by decide) rfl
    rw [h]
    rfl
  · exact c6_dry_run_zero_network_requests.1
      { zipFiles := some (.ok []) }
      { source := "abapgit-standalone", packageName := "$zgit", dryRun := true } rfl

/- ### WebSocket basic-auth base64 encoder (amdp_websocket.go) -/

/-- Disjoint-bit decomposition: or-ing a multiple of `2 ^ n` with a value
below `2 ^ n` is addition. -/
theorem lor_eq_add_of_lt (n : Nat) :
    ∀ (x y : Nat), y < 2 ^ n → (x * 2 ^ n) ||| y = x * 2 ^ n + y := by
  induction n with
  | zero =>
      intro x y hy
      have hy0 : y = 0 := by omega
      subst hy0
      simp
  | succ n ih =>
      intro x y hy
      have e1 : x * 2 ^ (n + 1) = (x * 2 ^ n) * 2 := by ring
      have hdiv : ((x * 2 ^ (n + 1)) ||| y) / 2 = (x * 2 ^ n) ||| (y / 2) := by
        rw [Nat.or_div_two, e1, Nat.mul_div_cancel _ (by norm_num)]
      have he : (x * 2 ^ (n + 1)) % 2 = 0 := by omega
      have hmod : ((x * 2 ^ (n + 1)) ||| y) % 2 = y % 2 := by
        have h1 := Nat.or_mod_two_eq_one (a := x * 2 ^ (n + 1)) (b := y)
        rcases Nat.mod_two_eq_zero_or_one y with hy0 | hy1
        · rcases Nat.mod_two_eq_zero_or_one ((x * 2 ^ (n + 1)) ||| y) with hz0 | hz1
          · omega
          · rcases h1.mp hz1 with h | h <;> omega
        · have := h1.mpr (Or.inr hy1)
          omega
      have hy2 : y / 2 < 2 ^ n := by
        have : 2 ^ (n + 1) = 2 ^ n * 2 := by ring
        omega
      have hz := (Nat.div_add_mod ((x * 2 ^ (n + 1)) ||| y) 2).symm
      rw [hdiv, ih x (y / 2) hy2, hmod] at hz
      omega

/-- The 24-bit chunk value `data[i]<<16 | data[i+1]<<8 | data[i+2]` of
`base64Encode`, as plain arithmetic. -/
theorem chunk3_val (a b c : Nat) (hb : b < 256) (hc : c < 256) :
    (a <<< 16) ||| (b <<< 8) ||| c = a * 65536 + b * 256 + c := by
  have h1 : a <<< 16 = a * 65536 := by rw [Nat.shiftLeft_eq]
  have h2 : b <<< 8 = b * 256 := by rw [Nat.shiftLeft_eq]
  have e16 : (2 : ℕ) ^ 16 = 65536 := by norm_num
  have e8 : (2 : ℕ) ^ 8 = 256 := by norm_num
  have h3 : (a * 65536) ||| (b * 256) = a * 65536 + b * 256 := by
    have := lor_eq_add_of_lt 16 a (b * 256) (by omega)
    rw [e16] at this
    exact this
  have h4 : (a * 65536 + b * 256) ||| c = a * 65536 + b * 256 + c := by
    have e : a * 65536 + b * 256 = (a * 256 + b) * 256 := by ring
    have := lor_eq_add_of_lt 8 (a * 256 + b) c (by omega)
    rw [e8] at this
    rw [e, this]
  rw [h1, h2, h3, h4]

/-- The two-byte tail value `data[i]<<16 | data[i+1]<<8` of `base64Encode`. -/
theorem chunk2_val (a b : Nat) (hb : b < 256) :
    (a <<< 16) ||| (b <<< 8) = a * 65536 + b * 256 := by
  have h1 : a <<< 16 = a * 65536 := by rw [Nat.shiftLeft_eq]
  have h2 : b <<< 8 = b * 256 := by rw [Nat.shiftLeft_eq]
  have e16 : (2 : ℕ) ^ 16 = 65536 := by norm_num
  have := lor_eq_add_of_lt 16 a (b * 256) (by omega)
  rw [e16] at this
  rw [h1, h2, this]

/-- `(x >> n) & 0x3F` as division and remainder. -/
theorem shiftRight_and63 (x n : Nat) : (x >>> n) &&& 63 = x / 2 ^ n % 64 := by
  rw [Nat.shiftRight_eq_div_pow]
  have e : (63 : ℕ) = 2 ^ 6 - 1 := by norm_num
  rw [e, Nat.and_pow_two_sub_one_eq_mod]

/-- `x & 0x3F` as a remainder. -/
theorem and63 (x : Nat) : x &&& 63 = x % 64 := by
  have e : (63 : ℕ) = 2 ^ 6 - 1 := by norm_num
  rw [e, Nat.and_pow_two_sub_one_eq_mod]

/-- The alphabet constant `base64Chars` of `base64Encode` (it is also the
RFC 4648 Table 1 alphabet). -/
def base64Chars : String :=
  "ABCDEFGHIJKLMNOPQRSTUVWXYZabcdefghijklmnopqrstuvwxyz0123456789+/"

/-- Go string indexing into the alphabet (every index used is below 64). -/
def b64At (i : Nat) : Char := base64Chars.data.getD i '?'

/-- Embedding of `base64Encode` (the engine's own encoder for the WebSocket
basic-auth header): the loop consumes three bytes at a time, packing them
into a 24-bit value with shifts and ors, with the `remaining == 2` and
`remaining == 1` tails padded by `=`.  Bytes are `Fin 256`; the `uint32`
packing cannot overflow. -/
def base64Encode : List (Fin 256) → List Char
  | a :: b :: c :: rest =>
    let bv : Nat := (a.val <<< 16) ||| (b.val <<< 8) ||| c.val
    b64At (bv >>> 18 &&& 0x3F) :: b64At (bv >>> 12 &&& 0x3F) ::
      b64At (bv >>> 6 &&& 0x3F) :: b64At (bv &&& 0x3F) :: base64Encode rest
  | [a, b] =>
    let bv : Nat := (a.val <<< 16) ||| (b.val <<< 8)
    [b64At (bv >>> 18 &&& 0x3F), b64At (bv >>> 12 &&& 0x3F), b64At (bv >>> 6 &&& 0x3F), '=']
  | [a] =>
    let bv : Nat := a.val <<< 16
    [b64At (bv >>> 18 &&& 0x3F), b64At (bv >>> 12 &&& 0x3F), '=', '=']
  | [] => []

/-- Standard padded RFC 4648 base64 as the specification describes it: each
three-byte group becomes four alphabet characters of six bits each; a
two-byte tail becomes three characters and one `=`; a one-byte tail becomes
two characters and two `=`. -/
def rfc4648Encode : List (Fin 256) → List Char
  | a :: b :: c :: rest =>
    b64At (a.val / 4) :: b64At (a.val % 4 * 16 + b.val / 16) ::
      b64At (b.val % 16 * 4 + c.val / 64) :: b64At (c.val % 64) :: rfc4648Encode rest
  | [a, b] =>
    [b64At (a.val / 4), b64At (a.val % 4 * 16 + b.val / 16), b64At (b.val % 16 * 4), '=']
  | [a] =>
    [b64At (a.val / 4), b64At (a.val % 4 * 16), '=', '=']
  | [] => []

/-- Claim C8: the engine's own base64 encoder agrees with standard padded
RFC 4648 encoding on every byte sequence, including inputs of length 1 or 2
modulo 3. -/
theorem c8_base64_encoder_agrees_rfc4648 : ∀ data : List (Fin 256),
    base64Encode data = rfc4648Encode data
  | [] => rfl
  | [a] => by
      have h1 : a.val <<< 16 = a.val * 65536 := by rw [Nat.shiftLeft_eq]
      simp only [base64Encode, rfc4648Encode, h1, shiftRight_and63, and63]
      have ha := a.isLt
      norm_num
      constructor <;> (congr 1; omega)
  | [a, b] => by
      simp only [base64Encode, rfc4648Encode, chunk2_val a.val b.val b.isLt,
        shiftRight_and63, and63]
      have ha := a.isLt
      have hb := b.isLt
      norm_num
      refine ⟨by congr 1; omega, by congr 1; omega, by congr 1; omega⟩
  | a :: b :: c :: rest => by
      simp only [base64Encode, rfc4648Encode,
        chunk3_val a.val b.val c.val b.isLt c.isLt, shiftRight_and63, and63,
        c8_base64_encoder_agrees_rfc4648 rest]
      have ha := a.isLt
      have hb := b.isLt
      have hc := c.isLt
      norm_num
      refine ⟨by congr 1; omega, by congr 1; omega, by congr 1; omega, by congr 1; omega⟩
